import Mathlib

/- Formal model of the NTC computation in ntc.py: the operational-forecast
   reconciliation (CARQ backfill and per-cycle extraction), the peak-intensity
   classification and nested count/day accumulation, and the baseline-mean
   normalization producing the NTC index.  Wind speeds, day totals and means
   are rationals; a missing value (NaN in the source) is Option.none; a
   raised IndexError is an Except.error result. -/

namespace NTC

/- One forecast cycle: the parallel lists fhr / lat / lon / vmax / mslp / type
   of the source dictionaries.  Entries of vmax, mslp and type may be missing
   (none); a blank type code is some "". -/
structure Cycle where
  fhr : List Int
  lat : List ℚ
  lon : List ℚ
  vmax : List (Option ℚ)
  mslp : List (Option ℚ)
  type : List (Option String)
deriving DecidableEq

/- The running operational estimate: the pair (OFCL_vmax, OFCL_type) of the
   source.  Initialized to (0, "") per storm; either component can be NaN. -/
structure Est where
  vmax : Option ℚ
  type : Option String
deriving DecidableEq

/-- Modelled from the spec: the speed-to-type classification supplied by the
external track library (tracks.tools.get_type, not part of this repository),
used to derive a storm type code from a wind speed.  Standard thresholds:
below 34 kt a depression, 34 to 63 kt a named storm, 64 kt and above a
hurricane; the flag selects the subtropical codes. -/
def get_type (vmax : ℚ) (subtropical : Bool) : String :=
  if vmax < 34 then if subtropical then "SD" else "TD"
  else if vmax < 64 then if subtropical then "SS" else "TS"
  else "HU"

/- Dictionary lookup of an initialization time among the CARQ cycles. -/
def lookupKey (carq : List (Nat × Cycle)) (k : Nat) : Option Cycle :=
  (carq.find? (fun p => p.1 == k)).map (fun p => p.2)

/- Backfill of one OFCL cycle from CARQ (ntc.py lines 252-295).  If the cycle
   has no hours or starts at hour 12, and CARQ has a cycle at the same
   initialization time containing hour 0, the CARQ entry at the first index of
   hour 0 is spliced onto the front of every parallel list.  A blank CARQ type
   code is replaced by get_type applied to the wind at index 0 of the CARQ
   vmax list (the source reads index 0 there even though its null guard checks
   the hour-0 index), or by NaN when the hour-0 wind is missing.  Returns the
   possibly modified cycle and whether CARQ was used. -/
def backfillCycle (carq : List (Nat × Cycle)) (key : Nat) (c : Cycle) :
    Except String (Cycle × Bool) :=
  if c.fhr = [] ∨ c.fhr.head? = some 12 then
    match lookupKey carq key with
    | some cq =>
      if 0 ∈ cq.fhr then
        let i := cq.fhr.indexOf 0
        match cq.fhr.get? i, cq.lat.get? i, cq.lon.get? i, cq.vmax.get? i,
              cq.mslp.get? i, cq.type.get? i with
        | some f0, some la, some lo, some v, some p, some t =>
          let it? : Except String (Option String) :=
            if t = some "" then
              if v ≠ none then
                match cq.vmax.get? 0 with
                | some (some v0) => .ok (some (get_type v0 false))
                | some none => .ok none
                | none => .error "IndexError"
              else .ok none
            else .ok t
          match it? with
          | .error e => .error e
          | .ok it =>
            .ok ({ fhr := f0 :: c.fhr, lat := la :: c.lat, lon := lo :: c.lon,
                   vmax := v :: c.vmax, mslp := p :: c.mslp,
                   type := it :: c.type }, true)
        | _, _, _, _, _, _ => .error "IndexError"
      else .ok (c, false)
    | none => .ok (c, false)
  else .ok (c, false)

/- The backfill pass over every OFCL cycle of a storm, threading the use_carq
   flag (set once any cycle is backfilled, never cleared within a storm). -/
def backfillAll (carq : List (Nat × Cycle)) :
    List (Nat × Cycle) → Bool → Except String (List (Nat × Cycle) × Bool)
  | [], uc => .ok ([], uc)
  | (k, c) :: rest, uc =>
    match backfillCycle carq k c with
    | .error e => .error e
    | .ok (c1, used) =>
      match backfillAll carq rest (uc || used) with
      | .error e => .error e
      | .ok (rest1, ucf) => .ok ((k, c1) :: rest1, ucf)

/- The fallback chain of the extraction step when hour 3 is absent and the
   first branch (mslp recorded in the second item with first hour 0) did not
   apply (ntc.py lines 355-379).  The use_carq branch reads index 0; the reuse
   branch and the final nothing-done branch both leave the state unchanged and,
   since the append flag is never cleared there, append the current state. -/
def extractFallback (useCarq : Bool) (st : Est) (f : Cycle) :
    Except String (Est × Option Est) :=
  if useCarq = true ∧ 0 < f.vmax.length then
    match f.vmax.get? 0, f.type.get? 0 with
    | some v0, some t0 => .ok (⟨v0, t0⟩, some ⟨v0, t0⟩)
    | _, _ => .error "IndexError"
  else if useCarq = false ∧ st.vmax ≠ some 0 then
    .ok (st, some st)
  else
    .ok (st, some st)

/- One iteration of the forecast extraction loop (ntc.py lines 311-401) on a
   single cycle: from the use_carq flag and the running estimate, produce the
   new running estimate and the value appended to the OFCL lists (none when
   the cycle is skipped), or an IndexError where the source would raise. -/
def extractStep (useCarq : Bool) (st : Est) (f : Cycle) :
    Except String (Est × Option Est) :=
  if (3 : Int) ∈ f.fhr then
    match f.fhr.get? 1 with
    | none => .error "IndexError"
    | some h1 =>
      if h1 = 3 then
        match f.vmax.get? 1, f.type.get? 1 with
        | some v1, some t1 => .ok (⟨v1, t1⟩, some ⟨v1, t1⟩)
        | _, _ => .error "IndexError"
      else
        match f.fhr.get? 2 with
        | none => .error "IndexError"
        | some h2 =>
          if h2 = 3 ∧ f.fhr.get? 0 = some 0 then
            match f.vmax.get? 2, f.type.get? 2 with
            | some v2, some t2 => .ok (⟨v2, t2⟩, some ⟨v2, t2⟩)
            | _, _ => .error "IndexError"
          else .ok (st, none)
  else
    if 1 < f.mslp.length then
      match f.fhr.get? 0 with
      | none => .error "IndexError"
      | some h0 =>
        if h0 = 0 then
          match f.vmax.get? 0, f.type.get? 0 with
          | some v0, some t0 =>
            if v0 = none ∧ t0 = none then
              -- the NAN report branch only prints; the append flag stays
              -- set, so the current running estimate is appended
              .ok (st, some st)
            else
              let st1 : Est := ⟨v0, t0⟩
              if (f.vmax.take 2).all (fun x => x.isSome) then
                match f.vmax.get? 1 with
                | none => .error "IndexError"
                | some v1 =>
                  if v1 ≠ v0 then
                    match f.fhr.get? 1 with
                    | none => .error "IndexError"
                    | some _ => .ok (st1, some st1)
                  else .ok (st1, some st1)
              else .ok (st1, some st1)
          | _, _ => .error "IndexError"
        else extractFallback useCarq st f
    else extractFallback useCarq st f

/- The extraction loop over all cycles of a storm, collecting the appended
   estimates in order. -/
def extractMany (useCarq : Bool) : Est → List Cycle → Except String (Est × List Est)
  | st, [] => .ok (st, [])
  | st, c :: cs =>
    match extractStep useCarq st c with
    | .error e => .error e
    | .ok (st1, app) =>
      match extractMany useCarq st1 cs with
      | .error e => .error e
      | .ok (st2, rest) => .ok (st2, app.toList ++ rest)

/- The operational input of one storm: its OFCL cycles and CARQ cycles, both
   keyed by initialization time. -/
structure StormOpData where
  ofcl : List (Nat × Cycle)
  carq : List (Nat × Cycle)

/- Operational processing of one storm: the running estimate starts from the
   per-storm reset (OFCL_vmax = 0, OFCL_type = "", ntc.py line 222) and the
   use_carq flag from False (line 229); the backfill pass runs over every OFCL
   cycle, then the extraction loop collects the estimate list. -/
def processStormOp (s : StormOpData) : Except String (Est × List Est) :=
  match backfillAll s.carq s.ofcl false with
  | .error e => .error e
  | .ok (cycles, uc) => extractMany uc ⟨some 0, some ""⟩ (cycles.map (fun p => p.2))

/- The storm loop of one year, threading the running estimate variables from
   storm to storm exactly as the source does: the value left by the previous
   storm arrives, and the unconditional reset at the top of the loop body
   (line 222) discards it before any cycle is processed. -/
def opStormsFold : Est → List StormOpData → Except String (Est × List (List Est))
  | st, [] => .ok (st, [])
  | _, s :: ss =>
    match processStormOp s with
    | .error e => .error e
    | .ok (st2, lst) =>
      match opStormsFold st2 ss with
      | .error e => .error e
      | .ok (stf, rest) => .ok (stf, lst :: rest)

/- The per-storm estimate lists computed independently, each storm from the
   freshly reset state only. -/
def stormLists : List StormOpData → Except String (List (List Est))
  | [] => .ok []
  | s :: ss =>
    match processStormOp s with
    | .error e => .error e
    | .ok (_, lst) =>
      match stormLists ss with
      | .error e => .error e
      | .ok rest => .ok (lst :: rest)

/- np.nanmax over a list with possibly missing entries: the maximum of the
   present values, or NaN (none) when none are present. -/
def nanmax (l : List (Option ℚ)) : Option ℚ := (l.filterMap id).max?

/- Comparison of a possibly-NaN maximum against a lower bound; false on NaN,
   as every float comparison with NaN is false. -/
def nmGe (m : Option ℚ) (x : ℚ) : Bool :=
  match m with
  | some v => decide (x ≤ v)
  | none => false

/- Chained comparison lo <= m <= hi; false on NaN. -/
def nmBetween (lo : ℚ) (m : Option ℚ) (hi : ℚ) : Bool :=
  match m with
  | some v => decide (lo ≤ v ∧ v ≤ hi)
  | none => false

/- The peak category a storm is assigned by the classification chain. -/
inductive Cat where
  | mh
  | hu
  | ns
  | uncounted
deriving DecidableEq

/- Peak-intensity classification of a storm from its revised type and wind
   lists (ntc.py lines 157-172). -/
def classifyStorm (types : List String) (winds : List (Option ℚ)) : Cat :=
  if "HU" ∈ types ∧ nmGe (nanmax winds) 96 = true then .mh
  else if "HU" ∈ types ∧ nmBetween 64 (nanmax winds) 95 = true then .hu
  else if ("TS" ∈ types ∨ "SS" ∈ types) ∧ nmBetween 34 (nanmax winds) 63 = true then .ns
  else .uncounted

/- The six accumulated season statistics of one data source. -/
structure SeasonStats where
  ns : ℕ
  hu : ℕ
  mh : ℕ
  nsd : ℚ
  hud : ℚ
  mhd : ℚ
deriving DecidableEq

def initStats : SeasonStats := ⟨0, 0, 0, 0, 0, 0⟩

/- Nested count increments for a classified storm: a major hurricane also
   counts as a hurricane and a named storm. -/
def bumpCat (c : Cat) (s : SeasonStats) : SeasonStats :=
  match c with
  | .mh => { s with ns := s.ns + 1, hu := s.hu + 1, mh := s.mh + 1 }
  | .hu => { s with ns := s.ns + 1, hu := s.hu + 1 }
  | .ns => { s with ns := s.ns + 1 }
  | .uncounted => s

/- One revised-track observation: the extra_obs flag, the type code and the
   wind speed at one time. -/
structure Obs where
  extra : ℕ
  type : String
  vmax : Option ℚ

/- Day accumulation for one revised observation (ntc.py lines 180-203): each
   qualifying synoptic observation adds a quarter day to every category its
   instantaneous type and wind satisfy. -/
def obsDay (s : SeasonStats) (o : Obs) : SeasonStats :=
  if o.extra = 0 ∧ (o.type = "TS" ∨ o.type = "SS") ∧ nmBetween 34 o.vmax 63 = true then
    { s with nsd := s.nsd + 1/4 }
  else if o.extra = 0 ∧ o.type = "HU" ∧ nmBetween 64 o.vmax 95 = true then
    { s with nsd := s.nsd + 1/4, hud := s.hud + 1/4 }
  else if o.extra = 0 ∧ o.type = "HU" ∧ nmGe o.vmax 96 = true then
    { s with nsd := s.nsd + 1/4, hud := s.hud + 1/4, mhd := s.mhd + 1/4 }
  else s

/- Revised accumulation of one storm: classify from the full type and wind
   lists, bump the nested counts, then fold the day accumulation over every
   observation. -/
def accumStorm (s : SeasonStats) (obs : List Obs) : SeasonStats :=
  obs.foldl obsDay (bumpCat (classifyStorm (obs.map Obs.type) (obs.map Obs.vmax)) s)

def accumSeason (storms : List (List Obs)) : SeasonStats :=
  storms.foldl accumStorm initStats

/- Operational classification of a storm from its extracted estimate list
   (ntc.py lines 408-423). -/
def opClassify (ests : List Est) : Cat :=
  if some "HU" ∈ ests.map Est.type ∧ nmGe (nanmax (ests.map Est.vmax)) 96 = true then .mh
  else if some "HU" ∈ ests.map Est.type ∧
      nmBetween 64 (nanmax (ests.map Est.vmax)) 95 = true then .hu
  else if (some "TS" ∈ ests.map Est.type ∨ some "SS" ∈ ests.map Est.type) ∧
      nmBetween 34 (nanmax (ests.map Est.vmax)) 63 = true then .ns
  else .uncounted

/- Day accumulation for one operational estimate (ntc.py lines 428-452). -/
def opDay (s : SeasonStats) (e : Est) : SeasonStats :=
  if (e.type = some "TS" ∨ e.type = some "SS") ∧ nmBetween 34 e.vmax 63 = true then
    { s with nsd := s.nsd + 1/4 }
  else if e.type = some "HU" ∧ nmBetween 64 e.vmax 95 = true then
    { s with nsd := s.nsd + 1/4, hud := s.hud + 1/4 }
  else if e.type = some "HU" ∧ nmGe e.vmax 96 = true then
    { s with nsd := s.nsd + 1/4, hud := s.hud + 1/4, mhd := s.mhd + 1/4 }
  else s

def accumOpStorm (s : SeasonStats) (ests : List Est) : SeasonStats :=
  ests.foldl opDay (bumpCat (opClassify ests) s)

def accumOpSeason (storms : List (List Est)) : SeasonStats :=
  storms.foldl accumOpStorm initStats

/- The nesting invariant on season statistics. -/
def nested (s : SeasonStats) : Prop :=
  s.mh ≤ s.hu ∧ s.hu ≤ s.ns ∧ s.mhd ≤ s.hud ∧ s.hud ≤ s.nsd

/- The six raw fields of one year, and likewise the six baseline means. -/
structure Fields where
  ns : ℚ
  hu : ℚ
  mh : ℚ
  nsd : ℚ
  hud : ℚ
  mhd : ℚ
deriving DecidableEq

/- The NTC_50 normalization (ntc.py lines 546-551, 581-582, 590): each field
   divided by its baseline mean, the six ratios averaged and scaled to
   percent. -/
def ntc50 (y b : Fields) : ℚ :=
  ((y.ns / b.ns + y.hu / b.hu + y.mh / b.mh +
    y.nsd / b.nsd + y.hud / b.hud + y.mhd / b.mhd) / 6) * 100

/- One stored year record: the year and its six raw fields. -/
structure YearRec where
  year : ℤ
  stats : Fields

/- np mean of a list: NaN (none) on the empty list, as np.array([]).mean()
   yields NaN with only a runtime warning. -/
def npMean (l : List ℚ) : Option ℚ :=
  if l = [] then none else some (l.sum / l.length)

/- The values of one field over the years falling inside a window
   (ntc.py lines 523-528). -/
def windowVals (f : Fields → ℚ) (lo hi : ℤ) (yrs : List YearRec) : List ℚ :=
  (yrs.filter (fun y => decide (lo ≤ y.year ∧ y.year ≤ hi))).map (fun y => f y.stats)

/- Division by a possibly-NaN mean: a NaN divisor propagates NaN. -/
def npDiv (x : ℚ) (m : Option ℚ) : Option ℚ :=
  match m with
  | none => none
  | some d => some (x / d)

/- The full NTC_50 pipeline for one year against the window baselines: the
   six window means are computed, the six ratios taken, averaged and scaled;
   a NaN mean silently propagates to a NaN result, no error is ever raised. -/
def ntc50FromData (lo hi : ℤ) (yrs : List YearRec) (y : Fields) : Option ℚ :=
  match npDiv y.ns (npMean (windowVals Fields.ns lo hi yrs)),
        npDiv y.hu (npMean (windowVals Fields.hu lo hi yrs)),
        npDiv y.mh (npMean (windowVals Fields.mh lo hi yrs)),
        npDiv y.nsd (npMean (windowVals Fields.nsd lo hi yrs)),
        npDiv y.hud (npMean (windowVals Fields.hud lo hi yrs)),
        npDiv y.mhd (npMean (windowVals Fields.mhd lo hi yrs)) with
  | some a, some b, some c, some d, some e, some f =>
      some (((a + b + c + d + e + f) / 6) * 100)
  | _, _, _, _, _, _ => none

/- Concrete inputs used to settle individual claims. -/

/- A CARQ set holding one cycle at initialization time 7, hours -24, -12, 0,
   with distinct winds at the three hours and blank type codes. -/
def carqCex : List (Nat × Cycle) :=
  [(7, ⟨[-24, -12, 0], [10, 11, 12], [20, 21, 22], [some 30, some 40, some 70],
        [some 1005, some 1002, some 999], [some "", some "", some ""]⟩)]

/- An OFCL cycle whose first forecast hour is 12, triggering the backfill. -/
def ofclCex : Cycle :=
  ⟨[12, 24], [13, 14], [23, 24], [some 60, some 65], [some 990, some 988],
   [some "TS", some "TS"]⟩

/-- C1: the backfill inserts the CARQ hour-0 entry (hour 0, lat 12, lon 22,
wind 70, pressure 999) at the front of the cycle, but when the CARQ type code
is blank it derives the inserted type from the wind at index 0 of the CARQ
wind list (30 kt, giving TD), not from the wind of the hour-0 entry itself
(70 kt, whose classification is HU) as the claim states: the source reads
index 0 even though its null guard checks the hour-0 index. -/
theorem C1_backfill_type_bug :
    backfillCycle carqCex 7 ofclCex =
      Except.ok (⟨[0, 12, 24], [12, 13, 14], [22, 23, 24],
                  [some 70, some 60, some 65],
                  [some 999, some 990, some 988],
                  [some "TD", some "TS", some "TS"]⟩, true) ∧
    get_type 70 false = "HU" ∧ (some "TD" : Option String) ≠ some "HU" := by
  refine ⟨by rfl, by rfl, by decide⟩

/- A cycle without hour 3, with pressure recorded in the second item, first
   hour 0, and both the wind and the type missing at index 0. -/
def c3cex : Cycle :=
  ⟨[0, 6], [10, 10], [20, 20], [none, some 50], [some 999, some 998], [none, some "TS"]⟩

/-- C3 counterexample: on a cycle whose index-0 wind and type are both
missing, the extraction does not skip the cycle: with a previous estimate of
(55, TS) the cycle appends that estimate again, so the resulting list is not
the one produced when the cycle is absent (the empty list). -/
theorem C3_not_skipped :
    extractMany false ⟨some 55, some "TS"⟩ [c3cex] =
      Except.ok (⟨some 55, some "TS"⟩, [⟨some 55, some "TS"⟩]) ∧
    extractMany false ⟨some 55, some "TS"⟩ [] =
      Except.ok (⟨some 55, some "TS"⟩, []) ∧
    ([⟨some 55, some "TS"⟩] : List Est) ≠ [] := by
  refine ⟨by rfl, by rfl, by decide⟩

/- A single-entry cycle whose only forecast hour is 3. -/
def c4cex : Cycle := ⟨[3], [1], [1], [some 50], [some 1000], [some "TS"]⟩

/-- C4 counterexample: on the single-entry hour sequence [3] the extraction
step raises an IndexError (the source reads fhr[1]) instead of completing. -/
theorem C4_crash :
    extractStep false ⟨some 0, some ""⟩ c4cex = Except.error "IndexError" := by
  rfl

/-- C9: over a dataset whose only year (2005) lies outside the 1950-2000
baseline window, the window mean evaluates to NaN (none) with no error, and
the normalization then runs anyway, silently producing a NaN NTC value
instead of surfacing a fatal error before normalization. -/
theorem C9_silent_nan :
    npMean (windowVals Fields.ns 1950 2000 [⟨2005, ⟨1, 1, 1, 1, 1, 1⟩⟩]) = none ∧
    ntc50FromData 1950 2000 [⟨2005, ⟨1, 1, 1, 1, 1, 1⟩⟩] ⟨1, 1, 1, 1, 1, 1⟩ = none := by
  refine ⟨by rfl, by rfl⟩

/-- C8: a year whose six raw fields equal the corresponding baseline means,
all means non-zero, is normalized to an NTC value of exactly 100: each of the
six ratios is 1, and the average of the six times 100 is 100. -/
theorem C8_baseline_identity (y b : Fields) (hy : y = b)
    (h1 : b.ns ≠ 0) (h2 : b.hu ≠ 0) (h3 : b.mh ≠ 0)
    (h4 : b.nsd ≠ 0) (h5 : b.hud ≠ 0) (h6 : b.mhd ≠ 0) :
    ntc50 y b = 100 := by
  subst hy
  unfold ntc50
  rw [div_self h1, div_self h2, div_self h3, div_self h4, div_self h5, div_self h6]
  norm_num

/-- C8 witness: the identity evaluated at the concrete baseline
(10, 5, 2, 50, 25, 10). -/
theorem C8_baseline_identity_witness :
    ntc50 ⟨10, 5, 2, 50, 25, 10⟩ ⟨10, 5, 2, 50, 25, 10⟩ = 100 :=
  C8_baseline_identity _ _ rfl (by norm_num) (by norm_num) (by norm_num)
    (by norm_num) (by norm_num) (by norm_num)

/-- C10: the estimate lists produced by the storm loop of a year do not
depend on the running estimate left over from before the loop: since every
storm begins with the unconditional reset to (0, blank), the loop computes
exactly the per-storm lists obtained independently, so the carry-forward
branch can only ever reuse an estimate produced by an earlier cycle of the
same storm. -/
theorem C10_reset_isolation (st : Est) (ss : List StormOpData) :
    Except.map Prod.snd (opStormsFold st ss) = stormLists ss := by
  induction ss generalizing st with
  | nil => rfl
  | cons s ss ih =>
    cases hP : processStormOp s with
    | error e => simp only [opStormsFold, stormLists, hP, Except.map]
    | ok p =>
      obtain ⟨st2, lst⟩ := p
      have h2 := ih st2
      cases hF : opStormsFold st2 ss with
      | error e =>
        rw [hF] at h2
        simp only [opStormsFold, stormLists, hP, hF, ← h2, Except.map]
      | ok q =>
        rw [hF] at h2
        simp only [opStormsFold, stormLists, hP, hF, ← h2, Except.map]

/-- C2: extraction priority.  For every cycle, in any use_carq state and from
any running estimate: if forecast hour 3 stands at index 1 then the extracted
and appended pair is the index-1 wind and type, whatever the rest of the
cycle (in particular whatever the backfill produced); otherwise, if hour 3
stands at index 2 and the index-0 hour is 0, the extracted and appended pair
is the index-2 wind and type. -/
theorem C2_priority (useCarq : Bool) (st : Est) (f : Cycle) :
    (∀ v1 t1, f.fhr.get? 1 = some 3 → f.vmax.get? 1 = some v1 →
      f.type.get? 1 = some t1 →
      extractStep useCarq st f = Except.ok (⟨v1, t1⟩, some ⟨v1, t1⟩)) ∧
    (∀ h1 v2 t2, f.fhr.get? 1 = some h1 → h1 ≠ 3 →
      f.fhr.get? 2 = some 3 → f.fhr.get? 0 = some 0 →
      f.vmax.get? 2 = some v2 → f.type.get? 2 = some t2 →
      extractStep useCarq st f = Except.ok (⟨v2, t2⟩, some ⟨v2, t2⟩)) := by
  constructor
  · intro v1 t1 hf hv ht
    unfold extractStep
    rw [if_pos (List.get?_mem hf), hf, hv, ht]
    rfl
  · intro h1 v2 t2 hf1 hne hf2 hf0 hv ht
    unfold extractStep
    rw [if_pos (List.get?_mem hf2), hf1]
    simp only [if_neg hne]
    rw [hf2]
    simp only [List.get?_eq_getElem?] at hf0 hv ht
    simp [hf0, hv, ht]

/- A cycle with hours [0, 3, 12]: hour 3 at index 1. -/
def c2cexA : Cycle :=
  ⟨[0, 3, 12], [1, 2, 3], [1, 2, 3], [some 40, some 45, some 50],
   [some 1000, some 999, some 998], [some "TS", some "TS", some "HU"]⟩

/- A cycle with hours [0, 1, 3]: hour 3 at index 2, hour 0 at index 0. -/
def c2cexB : Cycle :=
  ⟨[0, 1, 3], [1, 2, 3], [1, 2, 3], [some 40, some 45, some 50],
   [some 1000, some 999, some 998], [some "TS", some "TS", some "HU"]⟩

/-- C2 witness: both priority rules applied to concrete cycles, the first in
the use_carq state with a non-trivial running estimate. -/
theorem C2_priority_witness :
    extractStep true ⟨some 55, some "TS"⟩ c2cexA =
      Except.ok (⟨some 45, some "TS"⟩, some ⟨some 45, some "TS"⟩) ∧
    extractStep false ⟨some 0, some ""⟩ c2cexB =
      Except.ok (⟨some 50, some "HU"⟩, some ⟨some 50, some "HU"⟩) :=
  ⟨(C2_priority true ⟨some 55, some "TS"⟩ c2cexA).1 (some 45) (some "TS")
      (by rfl) (by rfl) (by rfl),
   (C2_priority false ⟨some 0, some ""⟩ c2cexB).2 1 (some 50) (some "HU")
      (by rfl) (by decide) (by rfl) (by rfl) (by rfl) (by rfl)⟩

/-- C5: carry-forward fallback.  On a cycle without hour 3 on which the first
branch does not apply (thin pressure record, or a first hour other than 0),
with use_carq False and a non-zero running wind estimate, the extraction
leaves the estimate unchanged and appends exactly that previous pair. -/
theorem C5_carry_forward (st : Est) (f : Cycle)
    (hmem : (3 : Int) ∉ f.fhr)
    (hcond : ¬ 1 < f.mslp.length ∨ ∃ h0, f.fhr.get? 0 = some h0 ∧ h0 ≠ 0)
    (hv : st.vmax ≠ some 0) :
    extractStep false st f = Except.ok (st, some st) := by
  unfold extractStep
  rw [if_neg hmem]
  have hfb : extractFallback false st f = Except.ok (st, some st) := by
    unfold extractFallback
    rw [if_neg (by simp), if_pos ⟨rfl, hv⟩]
  rcases hcond with hm | ⟨h0, hf0, hne⟩
  · rw [if_neg hm]
    exact hfb
  · by_cases hm : 1 < f.mslp.length
    · rw [if_pos hm, hf0]
      simp only [if_neg hne]
      exact hfb
    · rw [if_neg hm]
      exact hfb

/- A cycle with hours [6, 12] and empty pressure record. -/
def c5cex : Cycle := ⟨[6, 12], [], [], [], [], []⟩

/-- C5 witness: the previous estimate (55, TS) is reused unchanged. -/
theorem C5_carry_forward_witness :
    extractStep false ⟨some 55, some "TS"⟩ c5cex =
      Except.ok (⟨some 55, some "TS"⟩, some ⟨some 55, some "TS"⟩) :=
  C5_carry_forward ⟨some 55, some "TS"⟩ c5cex (by decide)
    (Or.inl (by decide)) (by decide)

/-- C3 as amended: on a cycle without hour 3, with more than one pressure
entry and first hour 0: when both the index-0 wind and type are missing, the
cycle is reported but the running estimate (initially (0, blank)) is appended
in its place, leaving the estimate unchanged, so the list is not the one an
absent cycle would give; otherwise the index-0 wind and type are appended. -/
theorem C3_gap_appends_running (useCarq : Bool) (st : Est) (f : Cycle)
    (hmem : (3 : Int) ∉ f.fhr) (hm : 1 < f.mslp.length)
    (hf0 : f.fhr.get? 0 = some 0) :
    (f.vmax.get? 0 = some none → f.type.get? 0 = some none →
      extractStep useCarq st f = Except.ok (st, some st)) ∧
    (∀ v0 t0, f.vmax.get? 0 = some v0 → f.type.get? 0 = some t0 →
      ¬(v0 = none ∧ t0 = none) → 1 < f.vmax.length → 1 < f.fhr.length →
      extractStep useCarq st f = Except.ok (⟨v0, t0⟩, some ⟨v0, t0⟩)) := by
  constructor
  · intro hv ht
    unfold extractStep
    rw [if_neg hmem, if_pos hm, hf0, hv, ht]
    rfl
  · intro v0 t0 hv ht hne hlv hlf
    unfold extractStep
    rw [if_neg hmem, if_pos hm, hf0, hv, ht]
    simp only [if_neg hne]
    obtain ⟨w1, ev1⟩ : ∃ w, f.vmax.get? 1 = some w := ⟨_, List.get?_eq_get hlv⟩
    obtain ⟨a1, e1⟩ : ∃ a, f.fhr.get? 1 = some a := ⟨_, List.get?_eq_get hlf⟩
    by_cases hall : ((f.vmax.take 2).all fun x => x.isSome) = true
    · simp only [if_pos hall, ev1]
      by_cases hd : w1 ≠ v0
      · simp only [if_pos hd, e1]
        exact if_pos trivial
      · simp only [if_neg hd]
        exact if_pos trivial
    · simp only [if_neg hall]
      exact if_pos trivial

/-- C3 witness for the amended claim: the missing branch on a concrete gap
cycle from the initial reset state, and the index-0 branch on a concrete
recorded cycle. -/
theorem C3_gap_appends_running_witness :
    extractStep false ⟨some 0, some ""⟩ c3cex = Except.ok (⟨some 0, some ""⟩, some ⟨some 0, some ""⟩) ∧
    extractStep false ⟨some 0, some ""⟩
        ⟨[0, 6], [10, 10], [20, 20], [some 45, some 45], [some 999, some 998],
         [some "TS", some "TS"]⟩ =
      Except.ok (⟨some 45, some "TS"⟩, some ⟨some 45, some "TS"⟩) :=
  ⟨(C3_gap_appends_running false ⟨some 0, some ""⟩ c3cex (by decide) (by decide)
      (by rfl)).1 (by rfl) (by rfl),
   (C3_gap_appends_running false ⟨some 0, some ""⟩
      ⟨[0, 6], [10, 10], [20, 20], [some 45, some 45], [some 999, some 998],
       [some "TS", some "TS"]⟩ (by decide) (by decide) (by rfl)).2
      (some 45) (some "TS") (by rfl) (by rfl) (by decide) (by decide) (by decide)⟩

/- Completion without error, the shape of a run that did not raise. -/
def noCrash (e : Except String (Est × Option Est)) : Prop :=
  ∃ r, e = Except.ok r

theorem extractFallback_total (useCarq : Bool) (st : Est) (f : Cycle)
    (h : f.type.length = f.vmax.length) : noCrash (extractFallback useCarq st f) := by
  unfold extractFallback
  split_ifs with h1 h2
  · obtain ⟨_, hlen⟩ := h1
    rw [List.get?_eq_get hlen, List.get?_eq_get (by omega : 0 < f.type.length)]
    exact ⟨_, rfl⟩
  · exact ⟨_, rfl⟩
  · exact ⟨_, rfl⟩

/-- C4 as amended: the extraction step completes without raising for every
cycle whose four parallel sequences share one length, provided that when
hour 3 occurs in the sequence either index 1 holds 3 or the sequence has at
least three entries; missing data then only ever skips the cycle.  The
unprovided shapes genuinely raise: see the counterexample on [3]. -/
theorem C4_totality (useCarq : Bool) (st : Est) (f : Cycle)
    (hv : f.vmax.length = f.fhr.length) (ht : f.type.length = f.fhr.length)
    (hm : f.mslp.length = f.fhr.length)
    (h3 : (3 : Int) ∈ f.fhr → f.fhr.get? 1 = some 3 ∨ 3 ≤ f.fhr.length) :
    noCrash (extractStep useCarq st f) := by
  unfold extractStep
  by_cases hmem : (3 : Int) ∈ f.fhr
  · rw [if_pos hmem]
    have l1 : 1 < f.fhr.length := by
      rcases h3 hmem with h1 | h
      · exact (List.get?_eq_some.mp h1).1
      · omega
    obtain ⟨a1, e1⟩ : ∃ a, f.fhr.get? 1 = some a := ⟨_, List.get?_eq_get l1⟩
    obtain ⟨w1, ev1⟩ : ∃ w, f.vmax.get? 1 = some w :=
      ⟨_, List.get?_eq_get (by omega : 1 < f.vmax.length)⟩
    obtain ⟨u1, et1⟩ : ∃ u, f.type.get? 1 = some u :=
      ⟨_, List.get?_eq_get (by omega : 1 < f.type.length)⟩
    simp only [e1]
    by_cases hh : a1 = 3
    · simp only [if_pos hh, ev1, et1]
      exact ⟨_, rfl⟩
    · simp only [if_neg hh]
      have l3 : 3 ≤ f.fhr.length := by
        rcases h3 hmem with h1 | h
        · exact absurd (Option.some.inj (h1.symm.trans e1)).symm hh
        · exact h
      obtain ⟨a2, e2⟩ : ∃ a, f.fhr.get? 2 = some a :=
        ⟨_, List.get?_eq_get (by omega : 2 < f.fhr.length)⟩
      obtain ⟨w2, ev2⟩ : ∃ w, f.vmax.get? 2 = some w :=
        ⟨_, List.get?_eq_get (by omega : 2 < f.vmax.length)⟩
      obtain ⟨u2, et2⟩ : ∃ u, f.type.get? 2 = some u :=
        ⟨_, List.get?_eq_get (by omega : 2 < f.type.length)⟩
      simp only [e2]
      by_cases hc : a2 = 3 ∧ f.fhr.get? 0 = some 0
      · simp only [if_pos hc, ev2, et2]
        exact ⟨_, rfl⟩
      · simp only [if_neg hc]
        exact ⟨_, rfl⟩
  · rw [if_neg hmem]
    by_cases hml : 1 < f.mslp.length
    · rw [if_pos hml]
      obtain ⟨a0, e0⟩ : ∃ a, f.fhr.get? 0 = some a :=
        ⟨_, List.get?_eq_get (by omega : 0 < f.fhr.length)⟩
      simp only [e0]
      by_cases h0 : a0 = 0
      · simp only [if_pos h0]
        obtain ⟨w0, ev0⟩ : ∃ w, f.vmax.get? 0 = some w :=
          ⟨_, List.get?_eq_get (by omega : 0 < f.vmax.length)⟩
        obtain ⟨u0, et0⟩ : ∃ u, f.type.get? 0 = some u :=
          ⟨_, List.get?_eq_get (by omega : 0 < f.type.length)⟩
        simp only [ev0, et0]
        by_cases hnul : w0 = none ∧ u0 = none
        · simp only [if_pos hnul]
          exact ⟨_, rfl⟩
        · simp only [if_neg hnul]
          by_cases hall : ((f.vmax.take 2).all fun x => x.isSome) = true
          · obtain ⟨w1, ev1⟩ : ∃ w, f.vmax.get? 1 = some w :=
              ⟨_, List.get?_eq_get (by omega : 1 < f.vmax.length)⟩
            simp only [if_pos hall, ev1]
            by_cases hd : w1 ≠ w0
            · obtain ⟨a1, e1⟩ : ∃ a, f.fhr.get? 1 = some a :=
                ⟨_, List.get?_eq_get (by omega : 1 < f.fhr.length)⟩
              simp only [if_pos hd, e1]
              exact ⟨_, rfl⟩
            · simp only [if_neg hd]
              exact ⟨_, rfl⟩
          · simp only [if_neg hall]
            exact ⟨_, rfl⟩
      · simp only [if_neg h0]
        exact extractFallback_total useCarq st f (by omega)
    · rw [if_neg hml]
      exact extractFallback_total useCarq st f (by omega)

/-- C4 witness: totality applied to a concrete two-entry cycle with hour 3 at
index 1. -/
theorem C4_totality_witness :
    noCrash (extractStep false ⟨some 0, some ""⟩
      ⟨[0, 3], [1, 2], [1, 2], [some 40, some 45], [some 1000, some 999],
       [some "TS", some "TS"]⟩) :=
  C4_totality false ⟨some 0, some ""⟩
    ⟨[0, 3], [1, 2], [1, 2], [some 40, some 45], [some 1000, some 999],
     [some "TS", some "TS"]⟩ (by decide) (by decide) (by decide)
    (fun _ => Or.inl (by rfl))

theorem nmGe_between_64 (m : Option ℚ) (h1 : nmGe m 96 = true)
    (h2 : nmBetween 64 m 95 = true) : False := by
  cases m with
  | none => simp [nmGe] at h1
  | some v =>
    simp only [nmGe, decide_eq_true_eq] at h1
    simp only [nmBetween, decide_eq_true_eq] at h2
    linarith [h2.2]

theorem nmGe_between_34 (m : Option ℚ) (h1 : nmGe m 96 = true)
    (h2 : nmBetween 34 m 63 = true) : False := by
  cases m with
  | none => simp [nmGe] at h1
  | some v =>
    simp only [nmGe, decide_eq_true_eq] at h1
    simp only [nmBetween, decide_eq_true_eq] at h2
    linarith [h2.2]

theorem nmBetween_64_34 (m : Option ℚ) (h1 : nmBetween 64 m 95 = true)
    (h2 : nmBetween 34 m 63 = true) : False := by
  cases m with
  | none => simp [nmBetween] at h1
  | some v =>
    simp only [nmBetween, decide_eq_true_eq] at h1 h2
    linarith [h1.1, h2.2]

/-- C6: the revised peak-intensity classification is characterized exactly:
a storm is classed major hurricane precisely when HU occurs among its types
and the maximum wind over present observations is at least 96 kt; hurricane
precisely when HU occurs and that maximum lies in 64 to 95 kt; named storm
precisely when a tropical or subtropical storm code occurs and the maximum
lies in 34 to 63 kt; and uncounted precisely when none of the three
conditions holds.  The branch order never masks a case, because the three
wind bands are pairwise disjoint. -/
theorem C6_peak_classification (types : List String) (winds : List (Option ℚ)) :
    (classifyStorm types winds = Cat.mh ↔
      "HU" ∈ types ∧ nmGe (nanmax winds) 96 = true) ∧
    (classifyStorm types winds = Cat.hu ↔
      "HU" ∈ types ∧ nmBetween 64 (nanmax winds) 95 = true) ∧
    (classifyStorm types winds = Cat.ns ↔
      ("TS" ∈ types ∨ "SS" ∈ types) ∧ nmBetween 34 (nanmax winds) 63 = true) ∧
    (classifyStorm types winds = Cat.uncounted ↔
      ¬("HU" ∈ types ∧ nmGe (nanmax winds) 96 = true) ∧
      ¬("HU" ∈ types ∧ nmBetween 64 (nanmax winds) 95 = true) ∧
      ¬(("TS" ∈ types ∨ "SS" ∈ types) ∧ nmBetween 34 (nanmax winds) 63 = true)) := by
  unfold classifyStorm
  split_ifs with h1 h2 h3
  · refine ⟨⟨fun _ => h1, fun _ => rfl⟩, ?_, ?_, ?_⟩
    · exact ⟨fun h => absurd h (by decide),
        fun h => absurd (nmGe_between_64 _ h1.2 h.2) id⟩
    · exact ⟨fun h => absurd h (by decide),
        fun h => absurd (nmGe_between_34 _ h1.2 h.2) id⟩
    · exact ⟨fun h => absurd h (by decide), fun h => absurd h1 h.1⟩
  · refine ⟨?_, ⟨fun _ => h2, fun _ => rfl⟩, ?_, ?_⟩
    · exact ⟨fun h => absurd h (by decide), fun h => absurd h h1⟩
    · exact ⟨fun h => absurd h (by decide),
        fun h => absurd (nmBetween_64_34 _ h2.2 h.2) id⟩
    · exact ⟨fun h => absurd h (by decide), fun h => absurd h2 h.2.1⟩
  · refine ⟨?_, ?_, ⟨fun _ => h3, fun _ => rfl⟩, ?_⟩
    · exact ⟨fun h => absurd h (by decide), fun h => absurd h h1⟩
    · exact ⟨fun h => absurd h (by decide), fun h => absurd h h2⟩
    · exact ⟨fun h => absurd h (by decide), fun h => absurd h3 h.2.2⟩
  · exact ⟨⟨fun h => absurd h (by decide), fun h => absurd h h1⟩,
      ⟨fun h => absurd h (by decide), fun h => absurd h h2⟩,
      ⟨fun h => absurd h (by decide), fun h => absurd h h3⟩,
      ⟨fun _ => ⟨h1, h2, h3⟩, fun _ => rfl⟩⟩

/-- C6 witness: a storm with types TS and HU peaking at 100 kt is classed
major hurricane. -/
theorem C6_peak_classification_witness :
    classifyStorm ["TS", "HU"] [some 40, some 100] = Cat.mh :=
  (C6_peak_classification ["TS", "HU"] [some 40, some 100]).1.mpr
    ⟨by decide, by rfl⟩

theorem nested_foldl {α : Type} (f : SeasonStats → α → SeasonStats)
    (hf : ∀ s a, nested s → nested (f s a)) (l : List α) :
    ∀ s, nested s → nested (l.foldl f s) := by
  induction l with
  | nil => intro s h; exact h
  | cons a l ih => intro s h; exact ih (f s a) (hf s a h)

theorem nested_bumpCat (s : SeasonStats) (c : Cat) (h : nested s) :
    nested (bumpCat c s) := by
  obtain ⟨h1, h2, h3, h4⟩ := h
  cases c <;> simp only [bumpCat, nested] <;>
    exact ⟨by omega, by omega, by linarith, by linarith⟩

theorem nested_obsDay (s : SeasonStats) (o : Obs) (h : nested s) :
    nested (obsDay s o) := by
  obtain ⟨h1, h2, h3, h4⟩ := h
  unfold obsDay
  split_ifs <;> simp only [nested] <;>
    exact ⟨by omega, by omega, by linarith, by linarith⟩

theorem nested_opDay (s : SeasonStats) (e : Est) (h : nested s) :
    nested (opDay s e) := by
  obtain ⟨h1, h2, h3, h4⟩ := h
  unfold opDay
  split_ifs <;> simp only [nested] <;>
    exact ⟨by omega, by omega, by linarith, by linarith⟩

/-- C7: the nesting invariant.  Starting from the zeroed accumulators, every
sequence of storm accumulations, revised or operational (hence every prefix,
so the invariant holds after every storm and for the final season totals),
yields counts with MH at most HU at most NS and day totals with MH days at
most HU days at most NS days: every increment of a higher category also
increments all lower ones. -/
theorem C7_nesting (storms : List (List Obs)) (opStorms : List (List Est)) :
    nested (accumSeason storms) ∧ nested (accumOpSeason opStorms) := by
  have h0 : nested initStats := ⟨le_refl _, le_refl _, le_refl _, le_refl _⟩
  constructor
  · exact nested_foldl accumStorm
      (fun s obs h => nested_foldl obsDay nested_obsDay obs _ (nested_bumpCat s _ h))
      storms initStats h0
  · exact nested_foldl accumOpStorm
      (fun s ests h => nested_foldl opDay nested_opDay ests _ (nested_bumpCat s _ h))
      opStorms initStats h0

end NTC
